import Mathlib

/-!
Shallow embedding of the freelint VS Code extension's lint/diagnostics engine
(src/src/linter.ts, canonical implementation) together with theorems checking
the natural-language specification against it.

Modelling conventions:
* TypeScript `number | undefined` fields become `Option Nat`.
* JavaScript arithmetic on possibly-undefined numbers is modelled by `JSNum`,
  which has an explicit `nan` value (`undefined - 1` is `NaN` in JavaScript).
* JavaScript truthiness of an optional number (`!message.line`) is modelled by
  `truthy` (`undefined` and `0` are falsy).
* The external analyzer (`eslint.lintText`) is an awaited call that either
  resolves with results or throws; it enters the model as an
  `Except String (List LintResult)` parameter of `lintDocument`.
* Side effects (logger calls, error notifications) are modelled as an emitted
  `List Event`.
-/

/-- A JavaScript number that may be `NaN` (the result of arithmetic on
`undefined`). -/
inductive JSNum where
  | num : Int → JSNum
  | nan : JSNum
  deriving DecidableEq

/-- JavaScript truthiness of a `number | undefined` value: `undefined` and `0`
are falsy, every other number is truthy. -/
def truthy : Option Nat → Bool
  | none => false
  | some n => n != 0

/-- JavaScript `x - 1` where `x : number | undefined`: `undefined - 1 = NaN`. -/
def jsub1 : Option Nat → JSNum
  | none => JSNum.nan
  | some n => JSNum.num ((n : Int) - 1)

/-- `ESLintFix` from linter.ts: a character-offset range and replacement text. -/
structure ESLintFix where
  rangeStart : Nat
  rangeEnd : Nat
  text : String
  deriving DecidableEq

/-- `ESLintMessage` from linter.ts (lines 17-26). -/
structure ESLintMessage where
  ruleId : Option String
  severity : Nat
  message : String
  line : Option Nat := none
  column : Option Nat := none
  endLine : Option Nat := none
  endColumn : Option Nat := none
  fix : Option ESLintFix := none
  deriving DecidableEq

/-- One element of the list returned by `eslint.lintText`. -/
structure LintResult where
  messages : List ESLintMessage
  deriving DecidableEq

/-- One element of the list returned by the fix-enabled pass
(`getAutoFixResults`); `output` is the fixed text when ESLint produced one. -/
structure FixLintResult where
  messages : List ESLintMessage
  output : Option String
  deriving DecidableEq

/-- `vscode.DiagnosticSeverity`, restricted to the two values the code uses. -/
inductive Severity where
  | error
  | warning
  deriving DecidableEq

/-- A `vscode.Range` as built by `lintDocument`; coordinates are `JSNum`
because the code subtracts 1 from possibly-undefined columns. -/
structure VsRange where
  startLine : JSNum
  startChar : JSNum
  endLine : JSNum
  endChar : JSNum
  deriving DecidableEq

/-- A `vscode.Diagnostic` as built by `lintDocument`. -/
structure Diagnostic where
  range : VsRange
  message : String
  severity : Severity
  source : Option String := none
  deriving DecidableEq

/-- The per-message body of the loop in `lintDocument` (linter.ts lines
190-223): skip messages whose `line` is falsy, otherwise build the range by
1-based→0-based conversion (end coordinates default to the start coordinates
when `endLine`/`endColumn` are falsy), classify severity (2 ↦ Error, anything
else ↦ Warning), and attach the `freelint(<ruleId>)` source tag when `ruleId`
is truthy. -/
def messageToDiagnostic (m : ESLintMessage) : Option Diagnostic :=
  if truthy m.line then
    some
      { range :=
          { startLine := jsub1 m.line
            startChar := jsub1 m.column
            endLine := if truthy m.endLine then jsub1 m.endLine else jsub1 m.line
            endChar := if truthy m.endColumn then jsub1 m.endColumn else jsub1 m.column }
        message := m.message
        severity := if m.severity == 2 then Severity.error else Severity.warning
        source :=
          match m.ruleId with
          | none => none
          | some r => if r = "" then none else some ("freelint(" ++ r ++ ")") }
  else
    none

example :
    messageToDiagnostic
      { ruleId := some "semi", severity := 1, message := "m",
        line := some 1, column := some 1, endLine := some 1, endColumn := some 5 } =
    some
      { range :=
          { startLine := JSNum.num 0, startChar := JSNum.num 0,
            endLine := JSNum.num 0, endChar := JSNum.num 4 }
        message := "m", severity := Severity.warning,
        source := some "freelint(semi)" } := by decide

example :
    messageToDiagnostic
      { ruleId := none, severity := 2, message := "m", line := some 3, column := some 2 } =
    some
      { range :=
          { startLine := JSNum.num 2, startChar := JSNum.num 1,
            endLine := JSNum.num 2, endChar := JSNum.num 1 }
        message := "m", severity := Severity.error, source := none } := by decide

/-- A `vscode.TextDocument` as far as the linter reads it: its uri (store key),
uri scheme, file-system path and current text. -/
structure Document where
  uriStr : String
  scheme : String
  fileName : String
  text : String
  deriving DecidableEq

/-- Split a character list on a separator character (kernel-reducible analogue
of `String.splitOn` for a one-character separator). -/
def splitOnChar (sep : Char) : List Char → List (List Char)
  | [] => [[]]
  | c :: cs =>
    let r := splitOnChar sep cs
    if c = sep then [] :: r
    else
      match r with
      | [] => [[c]]
      | g :: gs => (c :: g) :: gs

/-- Node's `path.extname`: the extension of the last path component, empty for
dotless names and for names whose only dot is the leading one. -/
def extname (fileName : String) : String :=
  let base := (splitOnChar '/' fileName.data).getLastD []
  match splitOnChar '.' base with
  | [] => ""
  | [_] => ""
  | p :: rest =>
    if p = [] && rest.length = 1 then ""
    else String.mk ('.' :: rest.getLastD [])

/-- Node's `path.basename`: the last path component. -/
def basename (fileName : String) : String :=
  String.mk ((splitOnChar '/' fileName.data).getLastD [])

/-- JavaScript `String.prototype.includes`. -/
def strContains (s pat : String) : Bool :=
  (List.range (s.data.length + 1)).any fun i =>
    (s.data.drop i).take pat.data.length = pat.data

example : extname "/a/b/test.js" = ".js" := by decide
example : extname "/a/.bashrc" = "" := by decide
example : extname "a.b.tsx" = ".tsx" := by decide
example : strContains "abc-extension-output-1" "extension-output" = true := by decide
example : strContains "/a/test.js" "extension-output" = false := by decide

/-- Side effects emitted by the linter: logger calls and user notifications. -/
inductive Event where
  | logLintResults (fileName : String) (errorCount warningCount : Nat)
  | logError (msg : String)
  | showErrorMessage (msg : String)
  deriving DecidableEq

/-- The mutable state of a `Linter` instance that the claims concern: the
`enabled` flag, the diagnostic collection (keyed by document uri) and the
single pending debounce timer (`debounceTimer`), recorded as the document the
pending `lintDocument` call would run on (`none` = no live timer). -/
structure LinterState where
  enabled : Bool
  store : List (String × List Diagnostic)
  timer : Option Document
  deriving DecidableEq

/-- Association-list access for the diagnostic collection. -/
def storeGet : List (String × List Diagnostic) → String → Option (List Diagnostic)
  | [], _ => none
  | p :: t, uri => if p.1 = uri then some p.2 else storeGet t uri

/-- `diagnosticCollection.get(uri) || []`. -/
def getStore (store : List (String × List Diagnostic)) (uri : String) :
    List Diagnostic :=
  (storeGet store uri).getD []

/-- `diagnosticCollection.set(uri, diags)`: replace the entry for `uri`
(insert it if absent). -/
def setStore (store : List (String × List Diagnostic)) (uri : String)
    (diags : List Diagnostic) : List (String × List Diagnostic) :=
  if (storeGet store uri).isSome then
    store.map fun p => if p.1 = uri then (uri, diags) else p
  else
    store ++ [(uri, diags)]

/-- `validExtensions` from linter.ts line 161. -/
def validExtensions : List String := [".js", ".jsx", ".ts", ".tsx"]

/-- The early-return gates of `lintDocument` (linter.ts lines 156-176),
as one conjunction: enabled, valid extension, `file` scheme, and not the
extension-output channel. -/
def passesGates (st : LinterState) (doc : Document) : Bool :=
  st.enabled && validExtensions.contains (extname doc.fileName) &&
    doc.scheme == "file" && !strContains doc.fileName "extension-output"

/-- The message loop of `lintDocument` (linter.ts lines 186-224): the
diagnostics list plus the error and warning counts (counted over the messages
that survive the `!message.line` skip; severity 2 counts as an error,
anything else as a warning). -/
def processMessages (results : List LintResult) :
    List Diagnostic × Nat × Nat :=
  let msgs := (results.map LintResult.messages).flatten
  (msgs.filterMap messageToDiagnostic,
   (msgs.filter fun m => truthy m.line && m.severity == 2).length,
   (msgs.filter fun m => truthy m.line && m.severity != 2).length)

/-- `lintDocument` (linter.ts lines 153-245). The analyzer call
`eslint.lintText` enters as the `analysis` parameter: `.ok results` when it
resolves, `.error e` when it throws. Returns the new state and the emitted
side effects. On an analyzer error the catch block logs, shows a notification
and leaves the state untouched; on success the new diagnostics are published
only when they differ structurally from the stored set, and the result-count
log is emitted only when the new set is non-empty. -/
def lintDocument (st : LinterState) (doc : Document)
    (analysis : Except String (List LintResult)) : LinterState × List Event :=
  if passesGates st doc then
    match analysis with
    | Except.error e =>
        (st,
         [Event.logError
            ("ESLint error while linting " ++ doc.fileName ++ ": " ++ e),
          Event.showErrorMessage ("Linting failed: " ++ e)])
    | Except.ok results =>
        let processed := processMessages results
        let diagnostics := processed.1
        let current := getStore st.store doc.uriStr
        if current = diagnostics then (st, [])
        else
          ({ st with store := setStore st.store doc.uriStr diagnostics },
           if diagnostics.length > 0 then
             [Event.logLintResults (basename doc.fileName) processed.2.1 processed.2.2]
           else [])
  else (st, [])

/-- `toggle` (linter.ts lines 267-278): flip `enabled`; when the new state is
disabled, clear the whole diagnostic collection and cancel the pending
debounce timer. Returns the new state and the new `enabled` value. -/
def toggle (st : LinterState) : LinterState × Bool :=
  let enabled := !st.enabled
  if !enabled then
    ({ enabled := enabled, store := [], timer := none }, enabled)
  else
    ({ st with enabled := enabled }, enabled)

/-- `debounceLint` (linter.ts lines 493-503): clear the single pending timer
(whatever document it was for) and start a new one for `doc`. -/
def debounceLint (st : LinterState) (doc : Document) : LinterState :=
  { st with timer := some doc }

/-- The `onDidChangeTextDocument` listener (linter.ts lines 128-132): debounce
a re-lint only while enabled. -/
def onChange (st : LinterState) (doc : Document) : LinterState :=
  if st.enabled then debounceLint st doc else st

/-- The index of the first occurrence of a character in a character list. -/
def charIdx (c : Char) : List Char → Option Nat
  | [] => none
  | a :: l => if a = c then some 0 else (charIdx c l).map (· + 1)

/-- JavaScript `String.prototype.startsWith`. -/
def strStartsWith (s pat : String) : Bool :=
  s.data.take pat.data.length = pat.data

/-- The regex match `source.match(/\((.*?)\)/)?.[1]` of linter.ts lines 374
and 447: the lazily captured text between the first `(` and the first `)`
after it (`none` when either parenthesis is missing). -/
def extractRuleId (source : String) : Option String :=
  (charIdx '(' source.data).bind fun i =>
    (charIdx ')' (source.data.drop (i + 1))).map fun j =>
      String.mk ((source.data.drop (i + 1)).take j)

example : extractRuleId "freelint(no-console)" = some "no-console" := by decide
example : extractRuleId "freelint" = none := by decide
example : extractRuleId "freelint()" = some "" := by decide

/-- The rule-identifier parse applied to a diagnostic's optional source tag in
both loops of `provideCodeActions`: the source must exist, start with
`freelint`, and yield a truthy (non-empty) captured rule id. -/
def parseSourceRuleId (source : Option String) : Option String :=
  match source with
  | none => none
  | some src =>
    if strStartsWith src "freelint" then
      match extractRuleId src with
      | none => none
      | some rid => if rid = "" then none else some rid
    else none

/-- The regex match `lineText.match(/^\s*/)?.[0] || ''`: the line's leading
whitespace. -/
def leadingWhitespace (s : String) : String :=
  String.mk (s.data.takeWhile fun c => c = ' ' || c = '\t' || c = '\r' || c = '\n')

/-- The lines of a document's text (used by `document.lineAt`). -/
def docLines (doc : Document) : List (List Char) :=
  splitOnChar '\n' doc.text.data

/-- `document.lineAt(line).text` for a `JSNum` line index; invalid indices
yield the empty line. -/
def getLine (doc : Document) (line : JSNum) : String :=
  match line with
  | JSNum.nan => ""
  | JSNum.num i =>
    if i < 0 then "" else String.mk ((docLines doc).getD i.toNat [])

/-- A workspace edit attached to a code action. -/
inductive ActionEdit where
  | insertAt (line : JSNum) (col : Nat) (text : String)
  | replaceOffsets (rangeStart rangeEnd : Nat) (text : String)
  | applyFixes (fixes : List ESLintFix)
  deriving DecidableEq

/-- A `vscode.CodeAction` as built by `provideCodeActions`. -/
structure CodeAction where
  title : String
  kind : String
  edit : ActionEdit
  deriving DecidableEq

/-- The "disable for this line" action for a diagnostic (linter.ts lines
378-393): inserts a line-disable directive, with the diagnostic line's
indentation, at column 0 of the diagnostic's start line. -/
def lineSuppressAction (doc : Document) (d : Diagnostic) (rid : String) :
    CodeAction :=
  { title := "Disable " ++ rid ++ " for this line"
    kind := "quickfix"
    edit := ActionEdit.insertAt d.range.startLine 0
      (leadingWhitespace (getLine doc d.range.startLine) ++
        "// eslint-disable-next-line " ++ rid ++ "\n") }

/-- The "disable for entire file" action for a rule (linter.ts lines
396-408): inserts a file-disable directive at the top of the document. -/
def fileSuppressAction (rid : String) : CodeAction :=
  { title := "Disable " ++ rid ++ " for entire file"
    kind := "quickfix"
    edit := ActionEdit.insertAt (JSNum.num 0) 0
      ("/* eslint-disable " ++ rid ++ " */\n") }

/-- The suppression actions contributed by one diagnostic in the first loop of
`provideCodeActions` (linter.ts lines 368-409): exactly one line-suppression
and one file-suppression action when the source tag parses, nothing
otherwise. -/
def suppressionActionsFor (doc : Document) (d : Diagnostic) : List CodeAction :=
  match parseSourceRuleId d.source with
  | none => []
  | some rid => [lineSuppressAction doc d rid, fileSuppressAction rid]

/-- The per-diagnostic single-rule fix actions (linter.ts lines 442-479):
collect the fix patches of the fix-pass messages for the diagnostic's rule and
offer one scoped fix action when there is at least one. -/
def perRuleFixActions (r : FixLintResult) (d : Diagnostic) : List CodeAction :=
  match parseSourceRuleId d.source with
  | none => []
  | some rid =>
    let fixes :=
      (r.messages.filter fun m => m.ruleId == some rid && m.fix.isSome).filterMap
        ESLintMessage.fix
    if fixes.length > 0 then
      [{ title := "Fix " ++ rid ++ " issue"
         kind := "quickfix"
         edit := ActionEdit.applyFixes fixes }]
    else []

/-- The auto-fix portion of `provideCodeActions` (linter.ts lines 414-480),
given a successful fix pass: when `results[0].output` exists and differs from
the document text, offer the fix-all action followed by the per-rule fix
actions. -/
def autoFixActions (doc : Document) (ctxDiagnostics : List Diagnostic)
    (results : List FixLintResult) : List CodeAction :=
  match results.head? with
  | none => []
  | some r =>
    match r.output with
    | none => []
    | some out =>
      if out = doc.text then []
      else
        { title := "Fix all auto-fixable problems"
          kind := "source.fixAll"
          edit := ActionEdit.replaceOffsets 0 doc.text.data.length out } ::
          ctxDiagnostics.flatMap (perRuleFixActions r)

/-- `provideCodeActions` (linter.ts lines 360-488). The fix-enabled analysis
pass (`getAutoFixResults`) enters as the `fixPass` parameter; it is only
consulted when the context has diagnostics, and a thrown error is caught:
it is logged (once inside `getAutoFixResults`, once by the outer catch) and
the already-collected suppression actions are returned unharmed. -/
def provideCodeActions (doc : Document) (ctxDiagnostics : List Diagnostic)
    (fixPass : Except String (List FixLintResult)) :
    List CodeAction × List Event :=
  let suppress := ctxDiagnostics.flatMap (suppressionActionsFor doc)
  if ctxDiagnostics.length > 0 then
    match fixPass with
    | Except.error e =>
        (suppress,
         [Event.logError ("Error getting auto-fix results: " ++ e),
          Event.logError ("Error providing auto-fix actions: " ++ e)])
    | Except.ok results => (suppress ++ autoFixActions doc ctxDiagnostics results, [])
  else (suppress, [])

/-- The delay passed to `setTimeout` in `debounceLint` (linter.ts line 502):
the literal `500`. -/
def debounceDelayMs : Nat := 500

/-- The timed view of the debounce machinery: the current clock, the single
pending `debounceTimer` (its absolute fire time and target document id), and
the log of fired analyses. Document ids stand for document identities. -/
structure SchedState where
  now : Nat
  pending : Option (Nat × String)
  fired : List (Nat × String)
  deriving DecidableEq

/-- The initial scheduler state: clock 0, no pending timer, nothing fired. -/
def schedInit : SchedState :=
  { now := 0, pending := none, fired := [] }

/-- `debounceLint` in timed form: `clearTimeout` on the single pending timer
(whatever document it belonged to) and `setTimeout` a new one
`debounceDelayMs` from now for `docId`. -/
def scheduleEdit (st : SchedState) (docId : String) : SchedState :=
  { st with pending := some (st.now + debounceDelayMs, docId) }

/-- Let `dt` milliseconds pass: the pending timer fires (exactly once, at its
scheduled time) when it expires within the interval. -/
def advanceTime (st : SchedState) (dt : Nat) : SchedState :=
  match st.pending with
  | some p =>
    if p.1 ≤ st.now + dt then
      { now := st.now + dt, pending := none, fired := st.fired ++ [p] }
    else { st with now := st.now + dt }
  | none => { st with now := st.now + dt }

/-- An external stimulus for the scheduler: a qualifying edit to a document,
or the passage of time. -/
inductive SchedEvent where
  | edit (docId : String)
  | tick (dt : Nat)
  deriving DecidableEq

/-- One scheduler step. -/
def schedStep (st : SchedState) (e : SchedEvent) : SchedState :=
  match e with
  | SchedEvent.edit d => scheduleEdit st d
  | SchedEvent.tick dt => advanceTime st dt

/-- Run the scheduler over a stimulus trace. -/
def schedRun (st : SchedState) (es : List SchedEvent) : SchedState :=
  es.foldl schedStep st

/-- Update or insert a key in an association list. -/
def setKey (l : List (String × Nat)) (k : String) (v : Nat) :
    List (String × Nat) :=
  if (l.lookup k).isSome then
    l.map fun p => if p.1 = k then (k, v) else p
  else l ++ [(k, v)]

/-- Modelled from the spec: the per-identity debounce scheduler the spec
describes ("cancels any existing pending timer for `identity`", "at most one
pending debounce timer per identity"), which is absent from the code — the
code keeps one global `debounceTimer`. Kept for comparison only. -/
structure SpecSchedState where
  now : Nat
  pending : List (String × Nat)
  fired : List (Nat × String)
  deriving DecidableEq

/-- Modelled from the spec: initial per-identity scheduler state. -/
def specSchedInit : SpecSchedState :=
  { now := 0, pending := [], fired := [] }

/-- Modelled from the spec: `schedule(identity, action)` cancels only the
pending timer for that identity and starts a new one. -/
def specScheduleEdit (st : SpecSchedState) (docId : String) : SpecSchedState :=
  { st with pending := setKey st.pending docId (st.now + debounceDelayMs) }

/-- Modelled from the spec: time passage fires every per-identity timer that
expires within the interval. -/
def specAdvanceTime (st : SpecSchedState) (dt : Nat) : SpecSchedState :=
  { now := st.now + dt
    pending := st.pending.filter fun p => ¬ p.2 ≤ st.now + dt
    fired := st.fired ++
      ((st.pending.filter fun p => p.2 ≤ st.now + dt).map fun p => (p.2, p.1)) }

/-- Modelled from the spec: one per-identity scheduler step. -/
def specSchedStep (st : SpecSchedState) (e : SchedEvent) : SpecSchedState :=
  match e with
  | SchedEvent.edit d => specScheduleEdit st d
  | SchedEvent.tick dt => specAdvanceTime st dt

/-- Modelled from the spec: run the per-identity scheduler over a trace. -/
def specSchedRun (st : SpecSchedState) (es : List SchedEvent) : SpecSchedState :=
  es.foldl specSchedStep st

/-- A rule's configured setting in the `baseConfig` rules table. -/
inductive RuleSetting where
  | off
  | warn
  | error
  | warnWith (args : List String)
  deriving DecidableEq

/-- The recognized `freelint.*` configuration surface declared in the current
package.json (v0.0.6): `plugins` (default `["react", "react-hooks",
"import"]`), `reactVersion` (default `"18.2.0"`), `debounceDelay` (default
500, declared minimum 100 and maximum 2000) and `ignorePatterns`. The field
defaults are the defaults `#initializeESLint` passes to `config.get`. -/
structure FreelintConfig where
  plugins : List String := ["react", "react-hooks", "import"]
  reactVersion : String := "18.2.0"
  debounceDelay : Nat := 500
  ignorePatterns : List String := ["**/node_modules/**", "**/dist/**"]
  deriving DecidableEq

/-- The resolved analyzer configuration assembled by `#initializeESLint`;
`reactSettingsVersion` is the `settings.react.version` entry, present only
when it is attached. -/
structure BaseConfig where
  plugins : List String
  extendsList : List String
  rules : List (String × RuleSetting)
  reactSettingsVersion : Option String
  deriving DecidableEq

/-- `pluginExtendMap` (current Linter revision): each known plugin's
recommended-config extends entry. -/
def pluginExtendMap : String → Option String
  | "react" => some "plugin:react/recommended"
  | "react-hooks" => some "plugin:react-hooks/recommended"
  | "import" => some "plugin:import/recommended"
  | _ => none

/-- The fixed baseline rule table of `#initializeESLint`, always present
regardless of enabled plugins. -/
def baselineRules : List (String × RuleSetting) :=
  [("no-console", RuleSetting.warn),
   ("no-unused-vars", RuleSetting.warn),
   ("no-redeclare", RuleSetting.error),
   ("no-var", RuleSetting.warn),
   ("no-unreachable", RuleSetting.error),
   ("no-extra-semi", RuleSetting.warn),
   ("quotes", RuleSetting.warnWith ["single"]),
   ("eqeqeq", RuleSetting.warnWith ["always"]),
   ("semi", RuleSetting.warnWith ["always"]),
   ("no-undef", RuleSetting.error)]

/-- The `baseConfig` assembled by `#initializeESLint` (current Linter
revision): the plugin list is the `freelint.plugins` setting verbatim; the
extends list starts from `eslint:recommended` and appends, via
`pluginExtendMap`, the recommended config of each enabled plugin that has one
(unknown names contribute nothing); the rules table is the fixed baseline
plus, spread in only when the respective plugin is enabled, the
react / react-hooks / import category rules; the react version setting is
attached only when the react plugin is enabled. -/
def initializeESLintConfig (cfg : FreelintConfig) : BaseConfig :=
  { plugins := cfg.plugins
    extendsList :=
      "eslint:recommended" ::
        (cfg.plugins.flatMap fun p =>
          match pluginExtendMap p with
          | some e => [e]
          | none => [])
    rules :=
      baselineRules ++
      (if cfg.plugins.contains "react" then
        [("react/react-in-jsx-scope", RuleSetting.off),
         ("react/jsx-pascal-case", RuleSetting.error)]
       else []) ++
      (if cfg.plugins.contains "react-hooks" then
        [("react-hooks/rules-of-hooks", RuleSetting.error),
         ("react-hooks/exhaustive-deps", RuleSetting.warn)]
       else []) ++
      (if cfg.plugins.contains "import" then
        [("import/no-unresolved", RuleSetting.error),
         ("import/named", RuleSetting.error),
         ("import/default", RuleSetting.error),
         ("import/namespace", RuleSetting.error),
         ("import/no-absolute-path", RuleSetting.error)]
       else [])
    reactSettingsVersion :=
      if cfg.plugins.contains "react" then some cfg.reactVersion else none }

/-- `#debounceDelay` as set by `#initializeESLint` (current Linter revision):
the configured `freelint.debounceDelay` value; `#debounceLint` passes exactly
this value to `setTimeout`. -/
def debounceDelayOf (cfg : FreelintConfig) : Nat := cfg.debounceDelay

/-- `#debounceLint` in timed form for a configured delay: clear the single
pending timer (whatever document it was for) and start a new one `delay`
milliseconds from now. -/
def scheduleEditD (delay : Nat) (st : SchedState) (docId : String) :
    SchedState :=
  { st with pending := some (st.now + delay, docId) }

/-- One scheduler step under a configured delay. -/
def schedStepD (delay : Nat) (st : SchedState) (e : SchedEvent) : SchedState :=
  match e with
  | SchedEvent.edit d => scheduleEditD delay st d
  | SchedEvent.tick dt => advanceTime st dt

/-- Run the configured-delay scheduler over a stimulus trace. -/
def schedRunD (delay : Nat) (st : SchedState) (es : List SchedEvent) :
    SchedState :=
  es.foldl (schedStepD delay) st

/-- A rule name is category-specific when it belongs to one of the react,
react-hooks or import plugin categories. -/
def isCategoryRule (name : String) : Bool :=
  strStartsWith name "react/" || strStartsWith name "react-hooks/" ||
    strStartsWith name "import/"

/-- A sample JavaScript file document used by witnesses. -/
def sampleDoc : Document :=
  { uriStr := "file:///proj/app.js"
    scheme := "file"
    fileName := "/proj/app.js"
    text := "var x = 1\nconsole.log(x)" }

/-- A sample enabled linter state with an empty store. -/
def sampleState : LinterState :=
  { enabled := true, store := [], timer := none }

/-- A sample disabled linter state. -/
def disabledState : LinterState :=
  { enabled := false, store := [], timer := none }

/-- A sample analyzer message. -/
def sampleMsg : ESLintMessage :=
  { ruleId := some "no-console"
    severity := 1
    message := "Unexpected console statement."
    line := some 2
    column := some 1
    endLine := some 2
    endColumn := some 12 }

/-- A sample analyzer result list containing `sampleMsg`. -/
def sampleResults : List LintResult := [{ messages := [sampleMsg] }]

/-- A sample normalized diagnostic. -/
def sampleDiag : Diagnostic :=
  { range :=
      { startLine := JSNum.num 1, startChar := JSNum.num 0,
        endLine := JSNum.num 1, endChar := JSNum.num 11 }
    message := "Unexpected console statement."
    severity := Severity.warning
    source := some "freelint(no-console)" }

/-- A sample enabled linter state with one stored diagnostic set and a live
pending debounce timer. -/
def populatedState : LinterState :=
  { enabled := true
    store := [(sampleDoc.uriStr, [sampleDiag])]
    timer := some sampleDoc }

lemma storeGet_map_set (uri : String) (d : List Diagnostic) :
    ∀ s : List (String × List Diagnostic), (storeGet s uri).isSome = true →
      storeGet (s.map fun p => if p.1 = uri then (uri, d) else p) uri = some d := by
  intro s
  induction s with
  | nil => intro h; simp [storeGet] at h
  | cons p t ih =>
    intro h
    by_cases hp : p.1 = uri
    · simp [storeGet, hp]
    · rw [storeGet, if_neg hp] at h
      simp only [List.map_cons]
      rw [if_neg hp, storeGet, if_neg hp]
      exact ih h

lemma storeGet_append_single (uri : String) (d : List Diagnostic) :
    ∀ s : List (String × List Diagnostic), storeGet s uri = none →
      storeGet (s ++ [(uri, d)]) uri = some d := by
  intro s
  induction s with
  | nil => intro _; simp [storeGet]
  | cons p t ih =>
    intro h
    by_cases hp : p.1 = uri
    · rw [storeGet, if_pos hp] at h
      exact absurd h (by simp)
    · rw [storeGet, if_neg hp] at h
      rw [List.cons_append, storeGet, if_neg hp]
      exact ih h

lemma getStore_setStore (s : List (String × List Diagnostic)) (uri : String)
    (d : List Diagnostic) : getStore (setStore s uri d) uri = d := by
  unfold getStore setStore
  by_cases h : (storeGet s uri).isSome = true
  · rw [if_pos h, storeGet_map_set uri d s h]
    rfl
  · rw [if_neg h, storeGet_append_single uri d s ?_]
    · rfl
    · cases hs : storeGet s uri with
      | none => rfl
      | some v => rw [hs] at h; simp at h

example : messageToDiagnostic sampleMsg = some sampleDiag := by decide

/-- **C2**: for every analyzer finding processed by `lintDocument`: a finding
with no start line is dropped (no diagnostic, no error); a finding with a
defined (1-based) start line yields a diagnostic whose range start is
`(line-1, column-1)` and whose range end defaults to the start coordinates
when `endLine`/`endColumn` are absent; in particular
`line=1, column=1, endLine=1, endColumn=5` yields range `(0,0)-(0,4)` and
`line=3, column=2` with no end fields yields the zero-width range
`(2,1)-(2,1)`. -/
theorem c2_range_conversion :
    (∀ m : ESLintMessage, m.line = none → messageToDiagnostic m = none) ∧
    (∀ (m : ESLintMessage) (l c : Nat), m.line = some l → 1 ≤ l →
      m.column = some c →
      ∃ d, messageToDiagnostic m = some d ∧
        d.range.startLine = JSNum.num ((l : Int) - 1) ∧
        d.range.startChar = JSNum.num ((c : Int) - 1) ∧
        (m.endLine = none → d.range.endLine = d.range.startLine) ∧
        (m.endColumn = none → d.range.endChar = d.range.startChar)) ∧
    (∀ m : ESLintMessage, m.line = some 1 → m.column = some 1 →
      m.endLine = some 1 → m.endColumn = some 5 →
      ∃ d, messageToDiagnostic m = some d ∧
        d.range = { startLine := JSNum.num 0, startChar := JSNum.num 0,
                    endLine := JSNum.num 0, endChar := JSNum.num 4 }) ∧
    (∀ m : ESLintMessage, m.line = some 3 → m.column = some 2 →
      m.endLine = none → m.endColumn = none →
      ∃ d, messageToDiagnostic m = some d ∧
        d.range = { startLine := JSNum.num 2, startChar := JSNum.num 1,
                    endLine := JSNum.num 2, endChar := JSNum.num 1 }) := by
  refine ⟨?_, ?_, ?_, ?_⟩
  · intro m h
    simp [messageToDiagnostic, truthy, h]
  · intro m l c hl h1 hc
    have ht : truthy m.line = true := by
      rw [hl]; simp [truthy]; omega
    refine ⟨_, by rw [messageToDiagnostic, if_pos ht], ?_, ?_, ?_, ?_⟩
    · simp [hl, jsub1]
    · simp [hc, jsub1]
    · intro he
      simp [he, truthy]
    · intro he
      simp [he, truthy]
  · intro m hl hc hel hec
    have ht : truthy m.line = true := by rw [hl]; simp [truthy]
    refine ⟨_, by rw [messageToDiagnostic, if_pos ht], ?_⟩
    simp [hl, hc, hel, hec, truthy, jsub1]
  · intro m hl hc hel hec
    have ht : truthy m.line = true := by rw [hl]; simp [truthy]
    refine ⟨_, by rw [messageToDiagnostic, if_pos ht], ?_⟩
    simp [hl, hc, hel, hec, truthy, jsub1]

/-- Witness for **C2** at the spec's two concrete findings. -/
theorem c2_range_conversion_witness :
    (∃ d, messageToDiagnostic
        { ruleId := some "semi", severity := 1, message := "w",
          line := some 1, column := some 1,
          endLine := some 1, endColumn := some 5 } = some d ∧
      d.range = { startLine := JSNum.num 0, startChar := JSNum.num 0,
                  endLine := JSNum.num 0, endChar := JSNum.num 4 }) ∧
    (∃ d, messageToDiagnostic
        { ruleId := some "semi", severity := 1, message := "w",
          line := some 3, column := some 2 } = some d ∧
      d.range = { startLine := JSNum.num 2, startChar := JSNum.num 1,
                  endLine := JSNum.num 2, endChar := JSNum.num 1 }) :=
  ⟨c2_range_conversion.2.2.1 _ rfl rfl rfl rfl,
   c2_range_conversion.2.2.2 _ rfl rfl rfl rfl⟩

/-- **C10**: a finding with a defined start line but an undefined column is
not dropped: `lintDocument` still builds a diagnostic, whose range start
character is `column - 1 = NaN` (and whose end character is also `NaN` when
`endColumn` is absent) instead of a valid 0-based position or a silent
skip. -/
theorem c10_nan_column (m : ESLintMessage) (l : Nat) (hl : m.line = some l)
    (h1 : 1 ≤ l) (hc : m.column = none) :
    ∃ d, messageToDiagnostic m = some d ∧
      d.range.startChar = JSNum.nan ∧
      (m.endColumn = none → d.range.endChar = JSNum.nan) := by
  have ht : truthy m.line = true := by
    rw [hl]; simp [truthy]; omega
  refine ⟨_, by rw [messageToDiagnostic, if_pos ht], ?_, ?_⟩
  · simp [hc, jsub1]
  · intro he
    simp [hc, he, truthy, jsub1]

/-- Witness for **C10**: a finding on line 4 with no column yields a
diagnostic with `NaN` character coordinates. -/
theorem c10_nan_column_witness :
    ∃ d, messageToDiagnostic
        { ruleId := some "no-undef", severity := 2, message := "w",
          line := some 4 } = some d ∧
      d.range.startChar = JSNum.nan ∧
      (({ ruleId := some "no-undef", severity := 2, message := "w",
          line := some 4 } : ESLintMessage).endColumn = none →
        d.range.endChar = JSNum.nan) :=
  c10_nan_column _ 4 rfl (by decide) rfl

/-- **C6**: if the analyzer throws while linting a document, `lintDocument`
leaves the linter state (in particular that document's stored diagnostic set)
exactly as it was, logs the error, shows a notification, and returns normally
instead of propagating the exception. -/
theorem c6_analysis_error_atomicity (st : LinterState) (doc : Document)
    (e : String) :
    (lintDocument st doc (Except.error e)).1 = st ∧
    (passesGates st doc = true →
      lintDocument st doc (Except.error e) =
        (st,
         [Event.logError
            ("ESLint error while linting " ++ doc.fileName ++ ": " ++ e),
          Event.showErrorMessage ("Linting failed: " ++ e)])) := by
  constructor
  · by_cases hg : passesGates st doc = true
    · rw [lintDocument, if_pos hg]
    · rw [lintDocument, if_neg hg]
  · intro hg
    rw [lintDocument, if_pos hg]

/-- Witness for **C6** on a concrete enabled state and JavaScript document. -/
theorem c6_analysis_error_atomicity_witness :
    (lintDocument populatedState sampleDoc (Except.error "Parsing error")).1 =
      populatedState ∧
    lintDocument populatedState sampleDoc (Except.error "Parsing error") =
      (populatedState,
       [Event.logError
          ("ESLint error while linting " ++ sampleDoc.fileName ++ ": " ++
            "Parsing error"),
        Event.showErrorMessage ("Linting failed: " ++ "Parsing error")]) := by
  have h := c6_analysis_error_atomicity populatedState sampleDoc "Parsing error"
  exact ⟨h.1, h.2 (by decide)⟩

/-- **C7**: toggling from Enabled to Disabled empties the diagnostic store for
every document identity and cancels the pending debounce timer; while
Disabled, `lintDocument` (the open/save/manual entry points) and the change
listener leave the state unchanged; toggling back to Enabled only flips the
flag and repopulates nothing. -/
theorem c7_disable_clears_state :
    (∀ st : LinterState, st.enabled = true →
        toggle st = ({ enabled := false, store := [], timer := none }, false)) ∧
    (∀ (st : LinterState) (uri : String), st.enabled = true →
        getStore (toggle st).1.store uri = []) ∧
    (∀ (st : LinterState) (doc : Document)
        (analysis : Except String (List LintResult)), st.enabled = false →
        lintDocument st doc analysis = (st, [])) ∧
    (∀ (st : LinterState) (doc : Document), st.enabled = false →
        onChange st doc = st) ∧
    (∀ st : LinterState, st.enabled = false →
        toggle st = ({ st with enabled := true }, true)) := by
  refine ⟨?_, ?_, ?_, ?_, ?_⟩
  · intro st h
    simp [toggle, h]
  · intro st uri h
    simp [toggle, h, getStore, storeGet]
  · intro st doc analysis h
    rw [lintDocument.eq_def, if_neg (by simp [passesGates, h])]
  · intro st doc h
    simp [onChange, h]
  · intro st h
    simp [toggle, h]

/-- Witness for **C7** on concrete states: a populated enabled state loses its
stored set and timer on toggle, and a disabled state ignores every entry
point. -/
theorem c7_disable_clears_state_witness :
    toggle populatedState =
      ({ enabled := false, store := [], timer := none }, false) ∧
    getStore (toggle populatedState).1.store sampleDoc.uriStr = [] ∧
    lintDocument disabledState sampleDoc (Except.ok sampleResults) =
      (disabledState, []) ∧
    onChange disabledState sampleDoc = disabledState ∧
    toggle disabledState = ({ disabledState with enabled := true }, true) := by
  have h := c7_disable_clears_state
  exact ⟨h.1 populatedState rfl, h.2.1 populatedState sampleDoc.uriStr rfl,
    h.2.2.1 disabledState sampleDoc (Except.ok sampleResults) rfl,
    h.2.2.2.1 disabledState sampleDoc rfl, h.2.2.2.2 disabledState rfl⟩

lemma lintDocument_gate_fail (st : LinterState) (doc : Document)
    (analysis : Except String (List LintResult))
    (hg : ¬ passesGates st doc = true) :
    lintDocument st doc analysis = (st, []) := by
  rw [lintDocument.eq_def, if_neg hg]

lemma lintDocument_ok (st : LinterState) (doc : Document)
    (results : List LintResult) (hg : passesGates st doc = true) :
    lintDocument st doc (Except.ok results) =
      if getStore st.store doc.uriStr = (processMessages results).1 then (st, [])
      else
        ({ st with
            store := setStore st.store doc.uriStr (processMessages results).1 },
         if (processMessages results).1.length > 0 then
           [Event.logLintResults (basename doc.fileName)
             (processMessages results).2.1 (processMessages results).2.2]
         else []) := by
  rw [lintDocument, if_pos hg]

/-- **C1**: re-analyzing unchanged text for the same document identity is
idempotent — a second `lintDocument` run on the same analyzer output neither
changes the state nor emits any event; and a single run publishes nothing when
the computed diagnostics equal the stored set, while on a difference it
replaces the stored set and emits the result-count log exactly when the new
set is non-empty. -/
theorem c1_publish_noop_on_equal :
    (∀ (st : LinterState) (doc : Document) (results : List LintResult),
        lintDocument (lintDocument st doc (Except.ok results)).1 doc
            (Except.ok results) =
          ((lintDocument st doc (Except.ok results)).1, [])) ∧
    (∀ (st : LinterState) (doc : Document) (results : List LintResult),
        passesGates st doc = true →
        (getStore st.store doc.uriStr = (processMessages results).1 →
          lintDocument st doc (Except.ok results) = (st, [])) ∧
        (getStore st.store doc.uriStr ≠ (processMessages results).1 →
          (lintDocument st doc (Except.ok results)).1.store =
            setStore st.store doc.uriStr (processMessages results).1 ∧
          ((lintDocument st doc (Except.ok results)).2 ≠ [] ↔
            (processMessages results).1 ≠ []))) := by
  constructor
  · intro st doc results
    by_cases hg : passesGates st doc = true
    · rw [lintDocument_ok st doc results hg]
      by_cases he : getStore st.store doc.uriStr = (processMessages results).1
      · rw [if_pos he, lintDocument_ok st doc results hg, if_pos he]
      · rw [if_neg he]
        have hg2 : passesGates
            { st with
                store := setStore st.store doc.uriStr (processMessages results).1 }
            doc = true := hg
        rw [lintDocument_ok _ doc results hg2,
          if_pos (getStore_setStore st.store doc.uriStr (processMessages results).1)]
    · rw [lintDocument_gate_fail st doc (Except.ok results) hg,
        lintDocument_gate_fail st doc (Except.ok results) hg]
  · intro st doc results hg
    constructor
    · intro he
      rw [lintDocument_ok st doc results hg, if_pos he]
    · intro he
      rw [lintDocument_ok st doc results hg, if_neg he]
      refine ⟨rfl, ?_⟩
      by_cases hd : (processMessages results).1 = []
      · simp [hd]
      · have : (processMessages results).1.length > 0 :=
          List.length_pos_iff_ne_nil.mpr hd
        simp [hd, this]

/-- Witness for **C1** on a concrete enabled state, JavaScript document and
analyzer output: the empty stored set differs from the computed one, so the
set is replaced and the count log is emitted. -/
theorem c1_publish_noop_on_equal_witness :
    (lintDocument sampleState sampleDoc (Except.ok sampleResults)).1.store =
      setStore sampleState.store sampleDoc.uriStr
        (processMessages sampleResults).1 ∧
    ((lintDocument sampleState sampleDoc (Except.ok sampleResults)).2 ≠ [] ↔
      (processMessages sampleResults).1 ≠ []) :=
  (c1_publish_noop_on_equal.2 sampleState sampleDoc sampleResults
    (by decide)).2 (by decide)

/-- **C4**: for every diagnostic in the requested context whose source tag
carries a parseable rule identifier, `provideCodeActions` contributes exactly
one line-suppression and one file-suppression action for it; the full action
list always extends the suppression actions, whatever the fix pass does; and
when the fix pass throws, the error is caught and logged, the suppression
actions are returned unharmed, and nothing propagates to the caller. -/
theorem c4_suppression_always_offered :
    (∀ (doc : Document) (d : Diagnostic) (rid : String),
        parseSourceRuleId d.source = some rid →
        suppressionActionsFor doc d =
          [lineSuppressAction doc d rid, fileSuppressAction rid]) ∧
    (∀ (doc : Document) (ctx : List Diagnostic)
        (fixPass : Except String (List FixLintResult)),
        ∃ rest, (provideCodeActions doc ctx fixPass).1 =
          ctx.flatMap (suppressionActionsFor doc) ++ rest) ∧
    (∀ (doc : Document) (ctx : List Diagnostic) (e : String), ctx ≠ [] →
        provideCodeActions doc ctx (Except.error e) =
          (ctx.flatMap (suppressionActionsFor doc),
           [Event.logError ("Error getting auto-fix results: " ++ e),
            Event.logError ("Error providing auto-fix actions: " ++ e)])) := by
  refine ⟨?_, ?_, ?_⟩
  · intro doc d rid h
    simp only [suppressionActionsFor, h]
  · intro doc ctx fixPass
    simp only [provideCodeActions]
    by_cases hl : ctx.length > 0
    · simp only [if_pos hl]
      cases fixPass with
      | error e => exact ⟨[], by simp⟩
      | ok results => exact ⟨autoFixActions doc ctx results, rfl⟩
    · simp only [if_neg hl]
      exact ⟨[], by simp⟩
  · intro doc ctx e hne
    have hl : ctx.length > 0 := List.length_pos_iff_ne_nil.mpr hne
    simp only [provideCodeActions, if_pos hl]

/-- Witness for **C4** on a concrete diagnostic tagged
`freelint(no-console)` and a failing fix pass. -/
theorem c4_suppression_always_offered_witness :
    suppressionActionsFor sampleDoc sampleDiag =
      [lineSuppressAction sampleDoc sampleDiag "no-console",
       fileSuppressAction "no-console"] ∧
    provideCodeActions sampleDoc [sampleDiag] (Except.error "fix pass failed") =
      ([sampleDiag].flatMap (suppressionActionsFor sampleDoc),
       [Event.logError ("Error getting auto-fix results: " ++ "fix pass failed"),
        Event.logError
          ("Error providing auto-fix actions: " ++ "fix pass failed")]) :=
  ⟨c4_suppression_always_offered.1 sampleDoc sampleDiag "no-console" (by decide),
   c4_suppression_always_offered.2.2 sampleDoc [sampleDiag] "fix pass failed"
     (by decide)⟩

lemma charIdx_append_right (cs : List Char) (h : (')' : Char) ∉ cs) :
    charIdx ')' (cs ++ [')']) = some cs.length := by
  induction cs with
  | nil => simp [charIdx]
  | cons a l ih =>
    have ha : ¬ a = ')' := fun e => h (by simp [e])
    have hl : (')' : Char) ∉ l := fun hm => h (List.mem_cons_of_mem a hm)
    simp [charIdx, ha, ih hl]

lemma parse_roundtrip (rid : String) (hne : rid ≠ "")
    (hp : (')' : Char) ∉ rid.data) :
    parseSourceRuleId (some ("freelint(" ++ rid ++ ")")) = some rid := by
  have hdata : ("freelint(" ++ rid ++ ")").data
      = 'f' :: 'r' :: 'e' :: 'e' :: 'l' :: 'i' :: 'n' :: 't' :: '(' ::
          (rid.data ++ [')']) := rfl
  have hidx : charIdx '(' ("freelint(" ++ rid ++ ")").data = some 8 := by
    rw [hdata]
    rfl
  have hstart : strStartsWith ("freelint(" ++ rid ++ ")") "freelint" = true := by
    rw [strStartsWith, hdata]
    rfl
  have hex : extractRuleId ("freelint(" ++ rid ++ ")") = some rid := by
    simp only [extractRuleId, hidx, Option.bind_some]
    norm_num
    exact ⟨rid.data.length, charIdx_append_right rid.data hp,
      by rw [List.take_left]⟩
  simp only [parseSourceRuleId, hstart, if_true, hex, if_neg hne]

/-- **C5**: the normalizer attaches the source tag `freelint(<ruleId>)` for
every finding with a truthy rule identifier and no source tag for a null rule
identifier, and the quick-fix generator's parse of that tag recovers exactly
the original rule identifier — in general for every non-empty identifier not
containing `)`, and in particular for every rule name the analyzer is
configured with. -/
theorem c5_source_tag_roundtrip :
    (∀ (m : ESLintMessage) (d : Diagnostic) (rid : String),
        m.ruleId = some rid → rid ≠ "" → messageToDiagnostic m = some d →
        d.source = some ("freelint(" ++ rid ++ ")")) ∧
    (∀ (m : ESLintMessage) (d : Diagnostic),
        m.ruleId = none → messageToDiagnostic m = some d → d.source = none) ∧
    (∀ rid : String, rid ≠ "" → (')' : Char) ∉ rid.data →
        parseSourceRuleId (some ("freelint(" ++ rid ++ ")")) = some rid) ∧
    (∀ r ∈ (initializeESLintConfig {}).rules.map Prod.fst,
        parseSourceRuleId (some ("freelint(" ++ r ++ ")")) = some r) := by
  refine ⟨?_, ?_, ?_, ?_⟩
  · intro m d rid hm hne hd
    by_cases hl : truthy m.line = true
    · rw [messageToDiagnostic, if_pos hl, Option.some_inj] at hd
      rw [← hd]
      simp only [hm, if_neg hne]
    · rw [messageToDiagnostic, if_neg hl] at hd
      exact absurd hd (by simp)
  · intro m d hm hd
    by_cases hl : truthy m.line = true
    · rw [messageToDiagnostic, if_pos hl, Option.some_inj] at hd
      rw [← hd]
      simp only [hm]
    · rw [messageToDiagnostic, if_neg hl] at hd
      exact absurd hd (by simp)
  · exact parse_roundtrip
  · decide

/-- Witness for **C5**: the round trip at the concrete rule identifier
`no-unused-vars`. -/
theorem c5_source_tag_roundtrip_witness :
    parseSourceRuleId (some ("freelint(" ++ "no-unused-vars" ++ ")")) =
      some "no-unused-vars" :=
  c5_source_tag_roundtrip.2.2.1 "no-unused-vars" (by decide) (by decide)

lemma schedRun_burst (d : String) :
    ∀ gaps : List Nat, (∀ g ∈ gaps, g < debounceDelayMs) →
      ∀ st : SchedState, st.pending = some (st.now + debounceDelayMs, d) →
        schedRun st
            (gaps.flatMap fun g => [SchedEvent.tick g, SchedEvent.edit d]) =
          { now := st.now + gaps.sum
            pending := some (st.now + gaps.sum + debounceDelayMs, d)
            fired := st.fired } := by
  intro gaps
  induction gaps with
  | nil =>
    intro _ st hp
    simp only [List.flatMap_nil, schedRun, List.foldl_nil, List.sum_nil,
      Nat.add_zero]
    cases st
    simp_all
  | cons g gs ih =>
    intro hg st hp
    have hglt : g < debounceDelayMs := hg g (by simp)
    have hrest : ∀ x ∈ gs, x < debounceDelayMs := fun x hx => hg x (by simp [hx])
    have h1 : schedStep st (SchedEvent.tick g) = { st with now := st.now + g } := by
      simp only [schedStep, advanceTime]
      rw [hp]
      exact if_neg (by omega)
    have h2 : schedStep { st with now := st.now + g } (SchedEvent.edit d) =
        { now := st.now + g, pending := some (st.now + g + debounceDelayMs, d),
          fired := st.fired } := rfl
    have h3 := ih hrest
      { now := st.now + g, pending := some (st.now + g + debounceDelayMs, d),
        fired := st.fired } rfl
    simp only [schedRun] at h3
    simp only [List.flatMap_cons, List.cons_append, List.nil_append, schedRun,
      List.foldl_cons]
    rw [h1, h2, h3]
    simp [List.sum_cons, Nat.add_assoc]

/-- **C3** (counterexample): the debounce timer is a single global one, not
keyed by document identity — an edit to document B, arriving while document
A's timer is still pending, cancels A's timer, so A's analysis never fires.
The per-identity scheduler described by the spec fires both. -/
theorem c3_counterexample :
    (schedRun schedInit
        [SchedEvent.edit "A", SchedEvent.tick 100, SchedEvent.edit "B",
         SchedEvent.tick 1000]).fired = [(600, "B")] ∧
    (¬ ∃ p ∈ (schedRun schedInit
        [SchedEvent.edit "A", SchedEvent.tick 100, SchedEvent.edit "B",
         SchedEvent.tick 1000]).fired, p.2 = "A") ∧
    (specSchedRun specSchedInit
        [SchedEvent.edit "A", SchedEvent.tick 100, SchedEvent.edit "B",
         SchedEvent.tick 1000]).fired = [(500, "A"), (600, "B")] := by
  decide

/-- **C3** (amended): the scheduler keeps at most one pending timer globally,
shared by all documents; rescheduling cancels it whatever document it was
for. For N edits to one document, each gap under `debounceDelayMs` and with
no interleaved edits to other documents, exactly one analysis fires,
`debounceDelayMs` after the last edit. -/
theorem c3_single_global_debounce (d : String) (gaps : List Nat)
    (hg : ∀ g ∈ gaps, g < debounceDelayMs) (dt : Nat)
    (hdt : debounceDelayMs ≤ dt) :
    (schedRun schedInit
        (SchedEvent.edit d ::
          ((gaps.flatMap fun g => [SchedEvent.tick g, SchedEvent.edit d]) ++
            [SchedEvent.tick dt]))).fired =
      [(gaps.sum + debounceDelayMs, d)] := by
  have hb := schedRun_burst d gaps hg
    { now := 0, pending := some (0 + debounceDelayMs, d), fired := [] } rfl
  simp only [schedRun] at hb ⊢
  rw [List.foldl_cons, List.foldl_append]
  have hstep : schedStep schedInit (SchedEvent.edit d) =
      { now := 0, pending := some (0 + debounceDelayMs, d), fired := [] } := rfl
  rw [hstep, hb, List.foldl_cons, List.foldl_nil]
  simp only [schedStep, advanceTime]
  rw [if_pos (by omega)]
  simp

/-- Witness for the amended **C3** with two edits 100 ms apart followed by a
long quiet period: one fire, 500 ms after the last edit. -/
theorem c3_single_global_debounce_witness :
    (schedRun schedInit
        (SchedEvent.edit "A" ::
          (([100].flatMap fun g => [SchedEvent.tick g, SchedEvent.edit "A"]) ++
            [SchedEvent.tick 500]))).fired =
      [([100].sum + debounceDelayMs, "A")] :=
  c3_single_global_debounce "A" [100] (by decide) 500 (by decide)

/-- **C8**: building the rule configuration with an empty plugin-category set
yields a configuration with no react, react-hooks or import rule whatever the
framework version or other settings are, while the baseline rules are all
still present; an unrecognized category name contributes no extends entry and
no rules, and an empty set is never an error (the builder is total). -/
theorem c8_category_gating :
    (∀ cfg : FreelintConfig, cfg.plugins = [] →
      (initializeESLintConfig cfg).rules = baselineRules ∧
      (initializeESLintConfig cfg).extendsList = ["eslint:recommended"] ∧
      (initializeESLintConfig cfg).reactSettingsVersion = none) ∧
    ((baselineRules.map Prod.fst).any isCategoryRule = false) ∧
    (∀ cfg : FreelintConfig, cfg.plugins = ["not-a-category"] →
      (initializeESLintConfig cfg).rules = baselineRules ∧
      (initializeESLintConfig cfg).extendsList = ["eslint:recommended"]) := by
  refine ⟨?_, by decide, ?_⟩
  · intro cfg h
    simp [initializeESLintConfig, h]
  · intro cfg h
    refine ⟨?_, ?_⟩
    · simp [initializeESLintConfig, h, List.contains]
    · simp [initializeESLintConfig, h, pluginExtendMap]

/-- Witness for **C8**: the configuration built from an empty plugin list with
a non-default framework version, and from a single unrecognized category
name, is in both cases baseline-only. -/
theorem c8_category_gating_witness :
    ((initializeESLintConfig { plugins := [], reactVersion := "17.0.2" }).rules =
        baselineRules ∧
      (initializeESLintConfig { plugins := [], reactVersion := "17.0.2" }).extendsList =
        ["eslint:recommended"] ∧
      (initializeESLintConfig { plugins := [], reactVersion := "17.0.2" }).reactSettingsVersion =
        none) ∧
    ((initializeESLintConfig { plugins := ["not-a-category"] }).rules =
        baselineRules ∧
      (initializeESLintConfig { plugins := ["not-a-category"] }).extendsList =
        ["eslint:recommended"]) :=
  ⟨c8_category_gating.1 { plugins := [], reactVersion := "17.0.2" } rfl,
   c8_category_gating.2.2 { plugins := ["not-a-category"] } rfl⟩

lemma schedRunD_burst (delay : Nat) (d : String) :
    ∀ gaps : List Nat, (∀ g ∈ gaps, g < delay) →
      ∀ st : SchedState, st.pending = some (st.now + delay, d) →
        schedRunD delay st
            (gaps.flatMap fun g => [SchedEvent.tick g, SchedEvent.edit d]) =
          { now := st.now + gaps.sum
            pending := some (st.now + gaps.sum + delay, d)
            fired := st.fired } := by
  intro gaps
  induction gaps with
  | nil =>
    intro _ st hp
    simp only [List.flatMap_nil, schedRunD, List.foldl_nil, List.sum_nil,
      Nat.add_zero]
    cases st
    simp_all
  | cons g gs ih =>
    intro hg st hp
    have hglt : g < delay := hg g (by simp)
    have hrest : ∀ x ∈ gs, x < delay := fun x hx => hg x (by simp [hx])
    have h1 : schedStepD delay st (SchedEvent.tick g) =
        { st with now := st.now + g } := by
      simp only [schedStepD, advanceTime]
      rw [hp]
      exact if_neg (by omega)
    have h2 : schedStepD delay { st with now := st.now + g } (SchedEvent.edit d) =
        { now := st.now + g, pending := some (st.now + g + delay, d),
          fired := st.fired } := rfl
    have h3 := ih hrest
      { now := st.now + g, pending := some (st.now + g + delay, d),
        fired := st.fired } rfl
    simp only [schedRunD] at h3
    simp only [List.flatMap_cons, List.cons_append, List.nil_append, schedRunD,
      List.foldl_cons]
    rw [h1, h2, h3]
    simp [List.sum_cons, Nat.add_assoc]

/-- **C9**: the quiet period the debounce scheduler uses is exactly the
configured `freelint.debounceDelay` value (`#debounceDelay`, default 500),
not a fixed constant: for every configured value — in particular every value
of the declared range [100, 2000] — a burst of same-document edits with gaps
under the configured delay produces exactly one analysis, fired that many
milliseconds after the last edit. -/
theorem c9_configured_debounce_delay :
    (∀ cfg : FreelintConfig, debounceDelayOf cfg = cfg.debounceDelay) ∧
    debounceDelayOf {} = 500 ∧
    (∀ (cfg : FreelintConfig) (d : String) (gaps : List Nat),
      (∀ g ∈ gaps, g < debounceDelayOf cfg) →
      ∀ dt : Nat, debounceDelayOf cfg ≤ dt →
      (schedRunD (debounceDelayOf cfg) schedInit
          (SchedEvent.edit d ::
            ((gaps.flatMap fun g => [SchedEvent.tick g, SchedEvent.edit d]) ++
              [SchedEvent.tick dt]))).fired =
        [(gaps.sum + debounceDelayOf cfg, d)]) := by
  refine ⟨fun _ => rfl, rfl, ?_⟩
  intro cfg d gaps hg dt hdt
  have hb := schedRunD_burst (debounceDelayOf cfg) d gaps hg
    { now := 0, pending := some (0 + debounceDelayOf cfg, d), fired := [] } rfl
  simp only [schedRunD] at hb ⊢
  rw [List.foldl_cons, List.foldl_append]
  have hstep : schedStepD (debounceDelayOf cfg) schedInit (SchedEvent.edit d) =
      { now := 0, pending := some (0 + debounceDelayOf cfg, d), fired := [] } :=
    rfl
  rw [hstep, hb, List.foldl_cons, List.foldl_nil]
  simp only [schedStepD, advanceTime]
  rw [if_pos (by omega)]
  simp

/-- Witness for **C9** with the in-range configured delay 1000: two edits
300 ms apart, then a long quiet period — one fire, 1000 ms (not 500 ms) after
the last edit. -/
theorem c9_configured_debounce_delay_witness :
    (schedRunD (debounceDelayOf { debounceDelay := 1000 }) schedInit
        (SchedEvent.edit "A" ::
          (([300].flatMap fun g => [SchedEvent.tick g, SchedEvent.edit "A"]) ++
            [SchedEvent.tick 1000]))).fired =
      [([300].sum + debounceDelayOf { debounceDelay := 1000 }, "A")] :=
  c9_configured_debounce_delay.2.2 { debounceDelay := 1000 } "A" [300]
    (by decide) 1000 (by decide)
